import Mathlib

/-!
Shallow embedding of `click_slider_map.py` (the "Water We Doing?" dashboard).

Pandas data frames are modelled as a list of column names plus row-major
cell lists; pandas/plotly figures are modelled as structures carrying the
fields the specification talks about.  Exceptions raised by the Python code
(KeyError, IndexError) are modelled by `Option`: a function returns `none`
exactly when the Python code would raise.
-/

/-- A cell value of the loaded table: a string, an exact number
(pandas floats are modelled as rationals), or a missing value (NaN). -/
inductive Val where
  | str : String → Val
  | num : ℚ → Val
  | na  : Val
deriving DecidableEq, Repr

/-- A pandas data frame: column labels plus row-major cells. -/
structure DataFrame where
  cols : List String
  rows : List (List Val)
deriving DecidableEq, Repr

/-- Index of the first column with the given label (pandas label lookup). -/
def colIndex : List String → String → Option Nat
  | [], _ => none
  | c :: t, x => if c = x then some 0 else (colIndex t x).map (· + 1)

/-- The `i`-th cell of a row, `na` when out of range. -/
def nthVal : List Val → Nat → Val
  | [], _ => .na
  | v :: _, 0 => v
  | _ :: t, n + 1 => nthVal t n

/-- Replace the `i`-th cell of a row (no-op when out of range). -/
def setNth : List Val → Nat → Val → List Val
  | [], _, _ => []
  | _ :: t, 0, v => v :: t
  | w :: t, n + 1, v => w :: setNth t n v

/-- The cell of `row` under column label `c` (given the frame's labels). -/
def rowGet (cols : List String) (row : List Val) (c : String) : Val :=
  match colIndex cols c with
  | some i => nthVal row i
  | none => .na

/-- The values of the column labelled `c`, row by row (`df[c]`). -/
def DataFrame.col (df : DataFrame) (c : String) : List Val :=
  df.rows.map (fun r => rowGet df.cols r c)

/-- Keep the columns whose label satisfies `p` (`df.filter(regex=..)`). -/
def DataFrame.filterCols (df : DataFrame) (p : String → Bool) : DataFrame :=
  { cols := df.cols.filter p,
    rows := df.rows.map (fun r => ((df.cols.zip r).filter (fun x => p x.1)).map (·.2)) }

/-- Reindex to the given column labels, in order (`df[fil_cols]`). -/
def DataFrame.selectCols (df : DataFrame) (names : List String) : DataFrame :=
  { cols := names,
    rows := df.rows.map (fun r => names.map (fun n => rowGet df.cols r n)) }

/-- Keep the rows satisfying `p` (boolean-mask row selection). -/
def DataFrame.filterRows (df : DataFrame) (p : List Val → Bool) : DataFrame :=
  { cols := df.cols, rows := df.rows.filter p }

/-- Rename every column label through `f` (`df.rename(columns=..)`). -/
def DataFrame.renameCols (df : DataFrame) (f : String → String) : DataFrame :=
  { cols := df.cols.map f, rows := df.rows }

/-- Column assignment `df[name] = vals`: overwrite the column when the label
exists, otherwise append it on the right. -/
def DataFrame.setCol (df : DataFrame) (name : String) (vals : List Val) : DataFrame :=
  match colIndex df.cols name with
  | some i => { cols := df.cols, rows := (df.rows.zip vals).map (fun p => setNth p.1 i p.2) }
  | none => { cols := df.cols ++ [name], rows := (df.rows.zip vals).map (fun p => p.1 ++ [p.2]) }

/-- Well-formedness: every row has exactly one cell per column. -/
def DataFrame.Wf (df : DataFrame) : Prop :=
  ∀ r ∈ df.rows, r.length = df.cols.length

/-- `pat` occurs as a contiguous run inside `s` (over characters). -/
def isInfixOfChars (pat : List Char) : List Char → Bool
  | [] => pat.isEmpty
  | c :: t => pat.isPrefixOf (c :: t) || isInfixOfChars pat t

/-- Python `pat in s`: substring containment. -/
def strContains (s pat : String) : Bool :=
  isInfixOfChars pat.toList s.toList

/-- Python `s.endswith(suf)`. -/
def strEndsWith (s suf : String) : Bool :=
  suf.toList.reverse.isPrefixOf s.toList.reverse

/-- `try_millify` (source lines 10-21): call the formatter, return the input
unchanged when it raises.  The `millify` library function is passed in as a
parameter `millify` that either produces a string or fails. -/
def try_millify (millify : Val → Nat → Except String Val) (x : Val) (precision : Nat) : Val :=
  match millify x precision with
  | .ok s => s
  | .error _ => x

/-- The `issue` dictionary (source lines 28-33): topic key to
(regex-filtered frame, display title, palette name).  `none` models the
KeyError on an unknown key.  The pandas regexes are substring alternations,
so a column is kept exactly when it contains one of the literals. -/
def issue (data : DataFrame) (t : String) : Option (DataFrame × String × String) :=
  if t = "water" then
    some (data.filterCols (fun c => strContains c "wat" || strContains c "iso3" ||
      strContains c "year" || strContains c "country"), "Water", "Blues")
  else if t = "sanitation" then
    some (data.filterCols (fun c => strContains c "san" || strContains c "iso3" ||
      strContains c "year" || strContains c "country"), "Sanitation", "Purples")
  else if t = "hygiene" then
    some (data.filterCols (fun c => strContains c "hyg" || strContains c "iso3" ||
      strContains c "year" || strContains c "country"), "Hygiene", "RedOr")
  else if t = "gdp" then
    some (data.filterCols (fun c => strContains c "gdp" || strContains c "iso3" ||
      strContains c "year" || strContains c "country"), "GDP", "Greens")
  else none

/-- The `services` dictionary (source lines 36-40); `none` models KeyError. -/
def services (k : String) : Option (List String) :=
  if k = "baseline" then some ["bas", "lim", "unimp", "sur", "nfac", "od"]
  else if k = "available" then some ["sm", "premises", "available", "quality", "sdo_sm", "fst_sm", "sew_sm"]
  else if k = "infrastructure" then some ["pip", "npip", "lat", "sep", "sew"]
  else none

/-- The `service_map` dictionary (source lines 43-62) in its insertion
order, which is the iteration order of `service_map.keys()` in Python 3.7+. -/
def service_map : List (String × String) :=
  [("bas", "Basic"), ("lim", "Limited"), ("unimp", "Unimproved"),
   ("sur", "Surface water"), ("nfac", "No facility"), ("od", "Open defecation"),
   ("sm", "Safe management"), ("premises", "On premises"),
   ("available", "Available when needed"), ("quality", "Free from contamination"),
   ("sdo_sm", "Disposed of"), ("fst_sm", "Emptied and treated"),
   ("sew", "Sewerage system"), ("sew_sm", "Waste water treated"),
   ("pip", "Piped"), ("npip", "Non-piped"), ("lat", "Latrine"), ("sep", "Septic tank")]

/-- The column-rename applied at source lines 293-295: the dict comprehension
`{string: service_map[key] for string in cols for key in service_map.keys() if key in string}`
updates the entry for `string` once per matching key, in `service_map` order,
so each later matching key overwrites the earlier ones; a column matching no
key is left unchanged by `rename`. -/
def tokenRename (s : String) : String :=
  (service_map.foldl (fun acc p => if strContains s p.1 then some p.2 else acc) none).getD s

/-- The four topic keys offered by the issue dropdown. -/
def issueKeys : List String := ["water", "sanitation", "hygiene", "gdp"]

/-- The three service-level keys offered by the dropdown. -/
def serviceLevelKeys : List String := ["baseline", "available", "infrastructure"]

/-- The three residence-type suffixes offered by the dropdown. -/
def residenceKeys : List String := ["_n", "_u", "_r"]

/-- The parts of the choropleth figure built by `make_map` that the
specification talks about. -/
structure MapFig where
  colorCol : String
  colorValues : List Val
  customMillified : List Val
  colorbarTitle : String
  tickvals : Option (List Int)
  ticktext : Option (List String)
  hoverOverride : Bool
deriving DecidableEq, Repr

/-- `make_map` (source lines 188-247).  `log10` stands for `np.log10` and
`millify` for the external `millify` library function; both are parameters of
the embedding.  `none` models the KeyError on an unknown topic key and the
IndexError when the topic table has fewer than four columns. -/
def make_map (log10 : Val → Val) (millify : Val → Nat → Except String Val)
    (data : DataFrame) (value : String) : Option MapFig :=
  match issue data value with
  | none => none
  | some params =>
    let issue_df := params.1
    let title := params.2.1
    match issue_df.cols[3]? with
    | none => none
    | some val =>
      let df2 := issue_df.setCol (val ++ " ")
        ((issue_df.col val).map (fun x => try_millify millify x 5))
      let df3 := if val = "gdp" then df2.setCol val ((df2.col val).map log10) else df2
      let context := if value ≠ "gdp" then "Cov.%" else "$"
      some { colorCol := val
             colorValues := df3.col val
             customMillified := df3.col (val ++ " ")
             colorbarTitle := title ++ " " ++ context
             tickvals := if value = "gdp" then some [8, 9, 10, 11, 12, 13] else none
             ticktext := if value = "gdp" then
                 some ["100M", "1B", "10B", "100B", "1T", "10T"] else none
             hoverOverride := value = "gdp" }

/-- One plotly line trace: series name, x data, y data, and whether it is
initially visible (`false` models `visible='legendonly'`). -/
structure Trace where
  name : String
  x : List Val
  y : List Val
  visible : Bool
deriving DecidableEq, Repr

/-- The parts of the line figure the specification talks about. -/
structure LineFig where
  traces : List Trace
  title : Option String
  xaxisTitle : Option String
  yaxisTitle : Option String
deriving DecidableEq, Repr

/-- `go.Figure()`: the empty figure returned when no click datum exists. -/
def emptyFig : LineFig :=
  { traces := [], title := none, xaxisTitle := none, yaxisTitle := none }

/-- The column list built at source lines 285-286:
`['iso3','year','country'] + [col for col in line_df.columns if
any([x in col for x in serv]) and col.endswith(res_type)]`. -/
def filCols (df : DataFrame) (serv : List String) (res_type : String) : List String :=
  ["iso3", "year", "country"] ++
    df.cols.filter (fun col => serv.any (fun x => strContains col x) && strEndsWith col res_type)

/-- The column-selection phase of `update_line_chart` (source lines 278-287):
look up the topic table and the tier's tokens, and for non-GDP topics keep
only `iso3, year, country` plus the tier/residence-matching columns. -/
def lineDf (iss ser_lev res_type : String) (data : DataFrame) : Option DataFrame :=
  match issue data iss, services ser_lev with
  | some selected, some serv =>
    some (if iss ≠ "gdp" then selected.1.selectCols (filCols selected.1 serv res_type)
          else selected.1)
  | _, _ => none

/-- Numeric comparison `v >= n` as pandas evaluates it on a cell: false on a
non-numeric or missing cell. -/
def valGeInt (v : Val) (n : Int) : Bool :=
  match v with
  | .num q => decide ((n : ℚ) ≤ q)
  | _ => false

/-- Numeric comparison `v <= n` on a cell. -/
def valLeInt (v : Val) (n : Int) : Bool :=
  match v with
  | .num q => decide (q ≤ (n : ℚ))
  | _ => false

/-- The row phase of `update_line_chart` (source lines 290-298): keep the
clicked country's rows, rename the columns, then keep the rows whose year
lies in the inclusive slider range. -/
def filteredFrame (location iss ser_lev res_type : String) (year_input : Int × Int)
    (data : DataFrame) : Option DataFrame :=
  match lineDf iss ser_lev res_type data with
  | none => none
  | some line_df =>
    let df2 := line_df.filterRows (fun r => rowGet line_df.cols r "iso3" == Val.str location)
    let df3 := df2.renameCols tokenRename
    some (df3.filterRows (fun r =>
      valGeInt (rowGet df3.cols r "year") year_input.1 &&
      valLeInt (rowGet df3.cols r "year") year_input.2))

/-- Display form of a cell, for the f-string that builds the chart title. -/
def valToString : Val → String
  | .str s => s
  | .num q => toString q
  | .na => "nan"

/-- `update_line_chart` (source lines 263-327).  The click datum is modelled
as `Option String` holding `click_data["points"][0]["location"]`.  `none`
models an uncaught exception: KeyError on an unknown topic or tier key, or
the IndexError from `filtered_df['country'].iloc[0]` when the filtered table
has no rows. -/
def update_line_chart (click_data : Option String) (iss ser_lev res_type : String)
    (year_input : Int × Int) (data : DataFrame) : Option LineFig :=
  match issue data iss, lineDf iss ser_lev res_type data with
  | some selected, some _ =>
    let title := selected.2.1
    match click_data with
    | none => some emptyFig
    | some location =>
      match filteredFrame location iss ser_lev res_type year_input data with
      | none => none
      | some filtered_df =>
        match filtered_df.rows.head? with
        | none => none
        | some row0 =>
          some { traces := (filtered_df.cols.drop 3).map (fun c =>
                   { name := c
                     x := filtered_df.col "year"
                     y := filtered_df.col c
                     visible := filtered_df.cols[3]? == some c })
                 title := some ("<b>" ++ valToString (rowGet filtered_df.cols row0 "country") ++
                   " -- Year by Year</b>")
                 xaxisTitle := some "Year"
                 yaxisTitle := if iss ≠ "gdp" then some (title ++ " Coverage (%)") else none }
  | _, _ => none

/-! ### Basic facts about the frame primitives -/

theorem colIndex_lt_length {cols : List String} {c : String} {i : Nat}
    (h : colIndex cols c = some i) : i < cols.length := by
  induction cols generalizing i with
  | nil => simp [colIndex] at h
  | cons a t ih =>
    simp only [List.length_cons]
    by_cases ha : a = c
    · simp [colIndex, ha] at h
      omega
    · simp only [colIndex, ha, if_false] at h
      rcases hopt : colIndex t c with _ | j <;> rw [hopt] at h <;> simp at h
      have := ih hopt
      omega

theorem colIndex_eq_none_iff {cols : List String} {c : String} :
    colIndex cols c = none ↔ c ∉ cols := by
  induction cols with
  | nil => simp [colIndex]
  | cons a t ih =>
    by_cases ha : a = c
    · simp [colIndex, ha]
    · simp only [colIndex, ha, if_false, List.mem_cons]
      constructor
      · intro h
        rcases hopt : colIndex t c with _ | j
        · exact fun hc => (ih.mp hopt) (hc.resolve_left (fun h' => ha h'.symm))
        · rw [hopt] at h; simp at h
      · intro h
        rw [ih.mpr (fun hc => h (Or.inr hc))]
        rfl

theorem colIndex_isSome_of_mem {cols : List String} {c : String} (h : c ∈ cols) :
    ∃ i, colIndex cols c = some i := by
  cases hc : colIndex cols c with
  | none => exact absurd (colIndex_eq_none_iff.mp hc) (by simp [h])
  | some i => exact ⟨i, rfl⟩

theorem colIndex_append {cols l : List String} {c : String} :
    colIndex (cols ++ l) c =
      match colIndex cols c with
      | some i => some i
      | none => (colIndex l c).map (· + cols.length) := by
  induction cols with
  | nil => simp [colIndex]
  | cons a t ih =>
    by_cases ha : a = c
    · simp [colIndex, ha]
    · simp only [List.cons_append, colIndex, ha, if_false, List.length_cons, List.append_eq]
      rw [ih]
      rcases hopt : colIndex t c with _ | j
      · cases hl : colIndex l c with
        | none => simp
        | some k => simp; omega
      · simp


theorem colIndex_getElem {cols : List String} {c : String} {i : Nat}
    (h : colIndex cols c = some i) : cols[i]? = some c := by
  induction cols generalizing i with
  | nil => simp [colIndex] at h
  | cons a t ih =>
    by_cases ha : a = c
    · simp [colIndex, ha] at h
      simp [← h, ha]
    · simp [colIndex, ha] at h
      rcases h with ⟨j, hj, rfl⟩
      simpa using ih hj

theorem nthVal_append_of_lt {r : List Val} {s : List Val} {i : Nat} (h : i < r.length) :
    nthVal (r ++ s) i = nthVal r i := by
  induction r generalizing i with
  | nil => simp at h
  | cons a t ih =>
    cases i with
    | zero => simp [nthVal]
    | succ n => simpa [nthVal] using ih (by simpa using h)

theorem nthVal_append_length {r : List Val} {v : Val} :
    nthVal (r ++ [v]) r.length = v := by
  induction r with
  | nil => simp [nthVal]
  | cons a t ih => simpa [nthVal] using ih

theorem nthVal_setNth_self {r : List Val} {i : Nat} {v : Val} (h : i < r.length) :
    nthVal (setNth r i v) i = v := by
  induction r generalizing i with
  | nil => simp at h
  | cons a t ih =>
    cases i with
    | zero => simp [setNth, nthVal]
    | succ n => simpa [setNth, nthVal] using ih (by simpa using h)

theorem nthVal_setNth_ne {r : List Val} {i j : Nat} {v : Val} (h : i ≠ j) :
    nthVal (setNth r i v) j = nthVal r j := by
  induction r generalizing i j with
  | nil => simp [setNth]
  | cons a t ih =>
    cases i with
    | zero =>
      cases j with
      | zero => exact absurd rfl h
      | succ m => simp [setNth, nthVal]
    | succ n =>
      cases j with
      | zero => simp [setNth, nthVal]
      | succ m => simpa [setNth, nthVal] using ih (by omega)

theorem length_setNth {r : List Val} {i : Nat} {v : Val} :
    (setNth r i v).length = r.length := by
  induction r generalizing i with
  | nil => simp [setNth]
  | cons a t ih =>
    cases i with
    | zero => simp [setNth]
    | succ n => simpa [setNth] using ih

theorem col_length (df : DataFrame) (c : String) : (df.col c).length = df.rows.length := by
  simp [DataFrame.col]

theorem rowGet_eq_nthVal {cols : List String} {c : String} {i : Nat}
    (h : colIndex cols c = some i) (row : List Val) : rowGet cols row c = nthVal row i := by
  unfold rowGet; rw [h]

theorem rowGet_eq_na {cols : List String} {c : String}
    (h : colIndex cols c = none) (row : List Val) : rowGet cols row c = .na := by
  unfold rowGet; rw [h]

theorem rowGet_setNth_ne {cols : List String} {c name : String} {i : Nat} {r : List Val} {v : Val}
    (hci : colIndex cols name = some i) (hne : c ≠ name) :
    rowGet cols (setNth r i v) c = rowGet cols r c := by
  cases hcc : colIndex cols c with
  | none => rw [rowGet_eq_na hcc, rowGet_eq_na hcc]
  | some j =>
    rw [rowGet_eq_nthVal hcc, rowGet_eq_nthVal hcc]
    apply nthVal_setNth_ne
    intro h
    subst h
    have h1 := colIndex_getElem hci
    have h2 := colIndex_getElem hcc
    rw [h1] at h2
    exact hne (Option.some.inj h2).symm

theorem rowGet_append_fresh {cols : List String} {c name : String} {r : List Val} {v : Val}
    (hne : c ≠ name) (hlen : r.length = cols.length) :
    rowGet (cols ++ [name]) (r ++ [v]) c = rowGet cols r c := by
  cases hcc : colIndex cols c with
  | some j =>
    have hj : colIndex (cols ++ [name]) c = some j := by rw [colIndex_append, hcc]
    rw [rowGet_eq_nthVal hj, rowGet_eq_nthVal hcc]
    exact nthVal_append_of_lt (hlen ▸ colIndex_lt_length hcc)
  | none =>
    have hcn : colIndex [name] c = none := by
      simp only [colIndex]
      rw [if_neg (fun h => hne h.symm)]
      rfl
    have hall : colIndex (cols ++ [name]) c = none := by rw [colIndex_append, hcc, hcn]; rfl
    rw [rowGet_eq_na hall, rowGet_eq_na hcc]

theorem col_setCol_self {df : DataFrame} {name : String} {vals : List Val}
    (hwf : df.Wf) (hlen : vals.length = df.rows.length) :
    (df.setCol name vals).col name = vals := by
  cases hci : colIndex df.cols name with
  | some i =>
    have hset : df.setCol name vals =
        ⟨df.cols, (df.rows.zip vals).map (fun p => setNth p.1 i p.2)⟩ := by
      unfold DataFrame.setCol; rw [hci]
    rw [hset]
    simp only [DataFrame.col]
    rw [List.map_map]
    have hcong : ∀ q ∈ df.rows.zip vals,
        ((fun r => rowGet df.cols r name) ∘ (fun p => setNth p.1 i p.2)) q = Prod.snd q := by
      intro q hq
      simp only [Function.comp_apply]
      rw [rowGet_eq_nthVal hci]
      exact nthVal_setNth_self (by rw [hwf q.1 (List.of_mem_zip hq).1]; exact colIndex_lt_length hci)
    rw [List.map_congr_left hcong, List.map_snd_zip _ _ (le_of_eq hlen)]
  | none =>
    have hset : df.setCol name vals =
        ⟨df.cols ++ [name], (df.rows.zip vals).map (fun p => p.1 ++ [p.2])⟩ := by
      unfold DataFrame.setCol; rw [hci]
    have hidx : colIndex (df.cols ++ [name]) name = some df.cols.length := by
      rw [colIndex_append, hci]; simp [colIndex]
    rw [hset]
    simp only [DataFrame.col]
    rw [List.map_map]
    have hcong : ∀ q ∈ df.rows.zip vals,
        ((fun r => rowGet (df.cols ++ [name]) r name) ∘ (fun p => p.1 ++ [p.2])) q = Prod.snd q := by
      intro q hq
      simp only [Function.comp_apply]
      rw [rowGet_eq_nthVal hidx, ← hwf q.1 (List.of_mem_zip hq).1]
      exact nthVal_append_length
    rw [List.map_congr_left hcong, List.map_snd_zip _ _ (le_of_eq hlen)]

theorem col_setCol_other {df : DataFrame} {name c : String} {vals : List Val}
    (hwf : df.Wf) (hlen : vals.length = df.rows.length) (hne : c ≠ name) :
    (df.setCol name vals).col c = df.col c := by
  cases hci : colIndex df.cols name with
  | some i =>
    have hset : df.setCol name vals =
        ⟨df.cols, (df.rows.zip vals).map (fun p => setNth p.1 i p.2)⟩ := by
      unfold DataFrame.setCol; rw [hci]
    rw [hset]
    simp only [DataFrame.col]
    rw [List.map_map]
    have hcong : ∀ q ∈ df.rows.zip vals,
        ((fun r => rowGet df.cols r c) ∘ (fun p => setNth p.1 i p.2)) q =
        ((fun r => rowGet df.cols r c) ∘ Prod.fst) q := by
      intro q _
      simp only [Function.comp_apply]
      exact rowGet_setNth_ne hci hne
    rw [List.map_congr_left hcong, ← List.map_map, List.map_fst_zip _ _ (le_of_eq hlen.symm)]
  | none =>
    have hset : df.setCol name vals =
        ⟨df.cols ++ [name], (df.rows.zip vals).map (fun p => p.1 ++ [p.2])⟩ := by
      unfold DataFrame.setCol; rw [hci]
    rw [hset]
    simp only [DataFrame.col]
    rw [List.map_map]
    have hcong : ∀ q ∈ df.rows.zip vals,
        ((fun r => rowGet (df.cols ++ [name]) r c) ∘ (fun p => p.1 ++ [p.2])) q =
        ((fun r => rowGet df.cols r c) ∘ Prod.fst) q := by
      intro q hq
      simp only [Function.comp_apply]
      exact rowGet_append_fresh hne (hwf q.1 (List.of_mem_zip hq).1)
    rw [List.map_congr_left hcong, ← List.map_map, List.map_fst_zip _ _ (le_of_eq hlen.symm)]

theorem filterCols_row_length {p : String → Bool} :
    ∀ (cs : List String) (r : List Val), r.length = cs.length →
      ((((cs.zip r).filter (fun x => p x.1)).map (·.2)).length = (cs.filter p).length) := by
  intro cs
  induction cs with
  | nil => intro r h; simp
  | cons a t ih =>
    intro r h
    cases r with
    | nil => simp at h
    | cons v r' =>
      simp only [List.length_cons] at h
      by_cases hp : p a
      · simp [List.zip_cons_cons, List.filter_cons, hp, ih r' (by omega)]
      · simp [List.zip_cons_cons, List.filter_cons, hp, ih r' (by omega)]

theorem filterCols_wf {df : DataFrame} {p : String → Bool} (hwf : df.Wf) :
    (df.filterCols p).Wf := by
  intro r hr
  simp only [DataFrame.filterCols] at hr ⊢
  rcases List.mem_map.mp hr with ⟨r0, hr0, rfl⟩
  exact filterCols_row_length df.cols r0 (hwf r0 hr0)

theorem setCol_wf {df : DataFrame} {name : String} {vals : List Val} (hwf : df.Wf) :
    (df.setCol name vals).Wf := by
  cases hci : colIndex df.cols name with
  | some i =>
    have hset : df.setCol name vals =
        ⟨df.cols, (df.rows.zip vals).map (fun p => setNth p.1 i p.2)⟩ := by
      unfold DataFrame.setCol; rw [hci]
    rw [hset]
    intro r hr
    rcases List.mem_map.mp hr with ⟨q, hq, rfl⟩
    rw [length_setNth]
    exact hwf q.1 (List.of_mem_zip hq).1
  | none =>
    have hset : df.setCol name vals =
        ⟨df.cols ++ [name], (df.rows.zip vals).map (fun p => p.1 ++ [p.2])⟩ := by
      unfold DataFrame.setCol; rw [hci]
    rw [hset]
    intro r hr
    rcases List.mem_map.mp hr with ⟨q, hq, rfl⟩
    simp [hwf q.1 (List.of_mem_zip hq).1]

theorem setCol_rows_length {df : DataFrame} {name : String} {vals : List Val}
    (hlen : vals.length = df.rows.length) :
    (df.setCol name vals).rows.length = df.rows.length := by
  cases hci : colIndex df.cols name with
  | some i =>
    have hset : df.setCol name vals =
        ⟨df.cols, (df.rows.zip vals).map (fun p => setNth p.1 i p.2)⟩ := by
      unfold DataFrame.setCol; rw [hci]
    rw [hset]
    simp [List.length_zip, hlen]
  | none =>
    have hset : df.setCol name vals =
        ⟨df.cols ++ [name], (df.rows.zip vals).map (fun p => p.1 ++ [p.2])⟩ := by
      unfold DataFrame.setCol; rw [hci]
    rw [hset]
    simp [List.length_zip, hlen]

/-! ### Claim theorems -/

/-- C7: `try_millify` is total: for every formatter behaviour, input value and
precision it never fails, and it returns either the compacted string the
formatter produced or the original input value unchanged. -/
theorem try_millify_total (millify : Val → Nat → Except String Val) (x : Val) (precision : Nat) :
    (∃ s, millify x precision = Except.ok s ∧ try_millify millify x precision = s) ∨
      try_millify millify x precision = x := by
  cases h : millify x precision with
  | ok s => exact Or.inl ⟨s, rfl, by simp [try_millify, h]⟩
  | error e => exact Or.inr (by simp [try_millify, h])

/-- A small example table used to instantiate the theorems on concrete data. -/
def sampleData : DataFrame :=
  { cols := ["iso3", "year", "country", "wat_bas_n", "wat_lim_n", "gdp"],
    rows := [[.str "USA", .num 2010, .str "United States", .num 99, .num 88, .num 1000000],
             [.str "USA", .num 2018, .str "United States", .num 97, .num 87, .num 2000000],
             [.str "CAN", .num 2010, .str "Canada", .num 95, .num 85, .num 500000]] }

/-- C8: for each of the four topic keys, the topic's filtered column subset
retains `iso3`, `year` and `country` next to the domain columns (whenever the
base table has them), so every table handed to the map renderer or the
line-chart renderer still carries those three columns. -/
theorem issue_retains_key_columns (data : DataFrame) (t : String) (ht : t ∈ issueKeys)
    (entry : DataFrame × String × String) (he : issue data t = some entry)
    (h1 : "iso3" ∈ data.cols) (h2 : "year" ∈ data.cols) (h3 : "country" ∈ data.cols) :
    "iso3" ∈ entry.1.cols ∧ "year" ∈ entry.1.cols ∧ "country" ∈ entry.1.cols := by
  simp only [issueKeys, List.mem_cons, List.not_mem_nil, or_false] at ht
  rcases ht with rfl | rfl | rfl | rfl <;>
    simp only [issue, if_true, reduceIte] at he <;>
    rcases Option.some.inj he with rfl <;>
    simp only [DataFrame.filterCols] <;>
    exact ⟨List.mem_filter.mpr ⟨h1, by decide⟩, List.mem_filter.mpr ⟨h2, by decide⟩,
      List.mem_filter.mpr ⟨h3, by decide⟩⟩

/-- C8 witness: the theorem instantiated on the sample table and topic `water`. -/
theorem issue_retains_key_columns_witness :
    ("water" ∈ issueKeys ∧ "iso3" ∈ sampleData.cols ∧ "year" ∈ sampleData.cols ∧
      "country" ∈ sampleData.cols) ∧
    ("iso3" ∈ (sampleData.filterCols (fun c => strContains c "wat" || strContains c "iso3" ||
        strContains c "year" || strContains c "country"), "Water", "Blues").1.cols ∧
     "year" ∈ (sampleData.filterCols (fun c => strContains c "wat" || strContains c "iso3" ||
        strContains c "year" || strContains c "country"), "Water", "Blues").1.cols ∧
     "country" ∈ (sampleData.filterCols (fun c => strContains c "wat" || strContains c "iso3" ||
        strContains c "year" || strContains c "country"), "Water", "Blues").1.cols) :=
  ⟨⟨by decide, by decide, by decide, by decide⟩,
    issue_retains_key_columns sampleData "water" (by decide) _ rfl
      (by decide) (by decide) (by decide)⟩

/-- C3: with no click datum present, `update_line_chart` returns the empty
figure for every topic key, service-tier key, residence suffix and year
range; since the result is the same empty figure in all cases, the other
four inputs have no influence on it. -/
theorem no_click_returns_empty (iss ser_lev res_type : String) (year_input : Int × Int)
    (data : DataFrame) (h1 : iss ∈ issueKeys) (h2 : ser_lev ∈ serviceLevelKeys) :
    update_line_chart none iss ser_lev res_type year_input data = some emptyFig := by
  simp only [issueKeys, serviceLevelKeys, List.mem_cons, List.not_mem_nil, or_false] at h1 h2
  rcases h1 with rfl | rfl | rfl | rfl <;> rcases h2 with rfl | rfl | rfl <;>
    simp [update_line_chart, lineDf, issue, services]

/-- C3 witness: the theorem instantiated at concrete inputs. -/
theorem no_click_returns_empty_witness :
    ("hygiene" ∈ issueKeys ∧ "infrastructure" ∈ serviceLevelKeys) ∧
    update_line_chart none "hygiene" "infrastructure" "_r" (2001, 2019) sampleData =
      some emptyFig :=
  ⟨⟨by decide, by decide⟩,
    no_click_returns_empty "hygiene" "infrastructure" "_r" (2001, 2019) sampleData
      (by decide) (by decide)⟩

theorem foldl_token_update (s : String) :
    ∀ (l : List (String × String)) (acc : Option String),
      l.foldl (fun a p => if strContains s p.1 then some p.2 else a) acc =
        match l.reverse.find? (fun p => strContains s p.1) with
        | some p => some p.2
        | none => acc := by
  intro l
  induction l with
  | nil => intro acc; rfl
  | cons a t ih =>
    intro acc
    simp only [List.foldl_cons, List.reverse_cons]
    rw [ih]
    rcases hopt : t.reverse.find? (fun p => strContains s p.1) with _ | q
    · rw [List.find?_append, hopt]
      cases hc : strContains s a.1 with
      | true => simp [List.find?_cons, hc]
      | false => simp [List.find?_cons, hc]
    · rw [List.find?_append, hopt]
      simp

/-- Modelled from the spec's words, for comparison in C5 only: a renaming in
which the FIRST token of the label map that is a substring of the column name
determines the label. -/
def tokenRenameFirstMatch (s : String) : String :=
  ((service_map.find? (fun p => strContains s p.1)).map (fun p => p.2)).getD s

/-- C5 counterexample: the column name `san_sdo_sm_n` contains both the token
`sm` (first match, label `Safe management`) and the token `sdo_sm` (a later
match, label `Disposed of`); the renaming used by `update_line_chart` yields
`Disposed of`, not the first matching token's label, so first-match-wins is
false. -/
theorem tokenRename_first_match_counterexample :
    tokenRenameFirstMatch "san_sdo_sm_n" = "Safe management" ∧
    tokenRename "san_sdo_sm_n" = "Disposed of" ∧
    tokenRename "san_sdo_sm_n" ≠ tokenRenameFirstMatch "san_sdo_sm_n" := by
  decide

/-- C5 (amended): every column whose name contains at least one known token of
the label map is renamed to a label, and when several tokens are substrings of
the same column name the label of the LAST matching token in the label map's
order wins (the dict comprehension overwrites earlier matches); a column
containing no token keeps its name. -/
theorem tokenRename_last_match_wins (s : String) :
    tokenRename s =
      match service_map.reverse.find? (fun p => strContains s p.1) with
      | some p => p.2
      | none => s := by
  unfold tokenRename
  rw [foldl_token_update]
  rcases h : service_map.reverse.find? (fun p => strContains s p.1) with _ | q <;> simp [h]

theorem lineDf_gdp (ser_lev res_type : String) (data : DataFrame)
    (h : ser_lev ∈ serviceLevelKeys) :
    lineDf "gdp" ser_lev res_type data = (issue data "gdp").map (fun selected => selected.1) := by
  simp only [serviceLevelKeys, List.mem_cons, List.not_mem_nil, or_false] at h
  rcases h with rfl | rfl | rfl <;>
    cases hi : issue data "gdp" <;> simp [lineDf, services, hi]

theorem filteredFrame_congr (loc iss : String) {sl1 rt1 sl2 rt2 : String}
    (yr : Int × Int) (data : DataFrame)
    (h : lineDf iss sl1 rt1 data = lineDf iss sl2 rt2 data) :
    filteredFrame loc iss sl1 rt1 yr data = filteredFrame loc iss sl2 rt2 yr data := by
  simp only [filteredFrame, h]

/-- C10 (noninterference for GDP): with topic `gdp` the figure produced by
`update_line_chart` does not depend on the service-level or residence-type
inputs — two invocations differing only in those two inputs (each tier being
a valid key) return equal figures, for any click datum, year range and data. -/
theorem gdp_line_noninterference (click_data : Option String) (sl1 sl2 rt1 rt2 : String)
    (yr : Int × Int) (data : DataFrame)
    (h1 : sl1 ∈ serviceLevelKeys) (h2 : sl2 ∈ serviceLevelKeys) :
    update_line_chart click_data "gdp" sl1 rt1 yr data =
      update_line_chart click_data "gdp" sl2 rt2 yr data := by
  have hl : lineDf "gdp" sl1 rt1 data = lineDf "gdp" sl2 rt2 data := by
    rw [lineDf_gdp _ _ _ h1, lineDf_gdp _ _ _ h2]
  have hf : ∀ loc, filteredFrame loc "gdp" sl1 rt1 yr data =
      filteredFrame loc "gdp" sl2 rt2 yr data :=
    fun loc => filteredFrame_congr loc "gdp" yr data hl
  simp only [update_line_chart, hl, hf]

/-- C10 witness: the theorem instantiated at two concrete invocations that
differ in both the tier and the residence suffix. -/
theorem gdp_line_noninterference_witness :
    ("baseline" ∈ serviceLevelKeys ∧ "available" ∈ serviceLevelKeys) ∧
    update_line_chart (some "USA") "gdp" "baseline" "_n" (2005, 2015) sampleData =
      update_line_chart (some "USA") "gdp" "available" "_u" (2005, 2015) sampleData :=
  ⟨⟨by decide, by decide⟩,
    gdp_line_noninterference (some "USA") "baseline" "available" "_n" "_u" (2005, 2015)
      sampleData (by decide) (by decide)⟩

theorem isPrefixOf_head_eq {a b : Char} {p q l : List Char}
    (h1 : (a :: p).isPrefixOf l = true) (h2 : (b :: q).isPrefixOf l = true) : a = b := by
  cases l with
  | nil => simp [List.isPrefixOf] at h1
  | cons c t =>
    simp only [List.isPrefixOf, Bool.and_eq_true, beq_iff_eq] at h1 h2
    exact h1.1.trans h2.1.symm

theorem endsWith_head_eq {c s1 s2 : String} (h1 : strEndsWith c s1 = true)
    (h2 : strEndsWith c s2 = true) :
    ∀ x p y q, s1.toList.reverse = x :: p → s2.toList.reverse = y :: q → x = y := by
  intro x p y q e1 e2
  unfold strEndsWith at h1 h2
  rw [e1] at h1
  rw [e2] at h2
  exact isPrefixOf_head_eq h1 h2

theorem strEndsWith_residence_unique {c r1 r2 : String} (h1 : r1 ∈ residenceKeys)
    (h2 : r2 ∈ residenceKeys) (hne : r1 ≠ r2) (h : strEndsWith c r1 = true) :
    strEndsWith c r2 = false := by
  simp only [residenceKeys, List.mem_cons, List.not_mem_nil, or_false] at h1 h2
  rcases h1 with rfl | rfl | rfl <;> rcases h2 with rfl | rfl | rfl <;>
    first
      | exact absurd rfl hne
      | (by_contra hcon
         rw [Bool.not_eq_false] at hcon
         exact absurd (endsWith_head_eq h hcon _ _ _ _ rfl rfl) (by decide))

/-- C4: for a non-GDP topic, the columns selected by the line-chart renderer
are exactly `iso3`, `year`, `country` plus those base-table columns that
contain at least one token of the selected tier as a substring AND end with
the selected residence suffix; consequently, a chosen suffix excludes every
column ending in either of the other two residence suffixes. -/
theorem line_chart_column_selection (iss ser_lev res_type : String) (data : DataFrame)
    (hiss : iss ∈ issueKeys) (hne : iss ≠ "gdp")
    (serv : List String) (hs : services ser_lev = some serv)
    (base : DataFrame × String × String) (hb : issue data iss = some base)
    (df : DataFrame) (h : lineDf iss ser_lev res_type data = some df) :
    (∀ c, c ∈ df.cols ↔ (c = "iso3" ∨ c = "year" ∨ c = "country" ∨
      (c ∈ base.1.cols ∧ (∃ tok ∈ serv, strContains c tok = true) ∧
        strEndsWith c res_type = true))) ∧
    (res_type ∈ residenceKeys → ∀ suf ∈ residenceKeys, suf ≠ res_type →
      ∀ c ∈ df.cols, strEndsWith c suf = false) := by
  have hdf : df = base.1.selectCols (filCols base.1 serv res_type) := by
    unfold lineDf at h
    simp only [hb, hs] at h
    rw [if_pos hne] at h
    exact (Option.some.inj h).symm
  subst hdf
  constructor
  · intro c
    simp only [DataFrame.selectCols, filCols, List.mem_append, List.mem_cons,
      List.not_mem_nil, or_false, List.mem_filter, Bool.and_eq_true, List.any_eq_true]
    tauto
  · intro hres suf hsuf hne2 c hc
    simp only [DataFrame.selectCols, filCols, List.mem_append, List.mem_cons,
      List.not_mem_nil, or_false, List.mem_filter, Bool.and_eq_true, List.any_eq_true] at hc
    rcases hc with (rfl | rfl | rfl) | ⟨-, -, hends⟩
    · simp only [residenceKeys, List.mem_cons, List.not_mem_nil, or_false] at hsuf
      rcases hsuf with rfl | rfl | rfl <;> decide
    · simp only [residenceKeys, List.mem_cons, List.not_mem_nil, or_false] at hsuf
      rcases hsuf with rfl | rfl | rfl <;> decide
    · simp only [residenceKeys, List.mem_cons, List.not_mem_nil, or_false] at hsuf
      rcases hsuf with rfl | rfl | rfl <;> decide
    · exact strEndsWith_residence_unique hres hsuf (fun hh => hne2 hh.symm) hends

theorem issue_wf {data : DataFrame} {t : String} {entry : DataFrame × String × String}
    (hwf : data.Wf) (he : issue data t = some entry) : entry.1.Wf := by
  unfold issue at he
  split_ifs at he <;>
    first
      | (rcases Option.some.inj he with rfl; exact filterCols_wf hwf)
      | exact absurd he (by simp)

theorem str_ne_append_space (s : String) : s ≠ s ++ " " := by
  intro h
  have h2 := congrArg String.length h
  simp [String.length_append] at h2
  exact absurd h2 (by decide)

/-- C1: `make_map` colors the choropleth by the topic table's 4th column
(index 3).  When the topic is GDP (equivalently, when that column is the
`gdp` column) the color values are the base-10 logarithms of the measure,
the color-bar ticks sit at the log values 8-13 labelled 100M … 10T, and the
hover text is overridden to show the pre-log millified values; for the other
three topics the measure column is untransformed, there are no tick
overrides, and the color legend is labelled as a coverage percentage. -/
theorem make_map_spec (log10 : Val → Val) (millify : Val → Nat → Except String Val)
    (data : DataFrame) (value : String) (hwf : data.Wf)
    (entry : DataFrame × String × String) (he : issue data value = some entry)
    (c : String) (hc : entry.1.cols[3]? = some c)
    (hgdp : c = "gdp" ↔ value = "gdp")
    (fig : MapFig) (hfig : make_map log10 millify data value = some fig) :
    fig.colorCol = c ∧
    fig.customMillified = (entry.1.col c).map (fun x => try_millify millify x 5) ∧
    (value = "gdp" →
      fig.colorValues = (entry.1.col c).map log10 ∧
      fig.tickvals = some [8, 9, 10, 11, 12, 13] ∧
      fig.ticktext = some ["100M", "1B", "10B", "100B", "1T", "10T"] ∧
      fig.hoverOverride = true) ∧
    (value ≠ "gdp" →
      fig.colorValues = entry.1.col c ∧
      fig.colorbarTitle = entry.2.1 ++ " " ++ "Cov.%" ∧
      fig.tickvals = none ∧ fig.ticktext = none ∧ fig.hoverOverride = false) := by
  have hwf1 : entry.1.Wf := issue_wf hwf he
  have hlen1 : ((entry.1.col c).map (fun x => try_millify millify x 5)).length =
      entry.1.rows.length := by simp [col_length]
  have hfne : c ≠ c ++ " " := str_ne_append_space c
  have hfne' : c ++ " " ≠ c := fun hcc => hfne hcc.symm
  have hwf2 : (entry.1.setCol (c ++ " ")
      ((entry.1.col c).map (fun x => try_millify millify x 5))).Wf := setCol_wf hwf1
  have hd2self : (entry.1.setCol (c ++ " ")
      ((entry.1.col c).map (fun x => try_millify millify x 5))).col (c ++ " ") =
      (entry.1.col c).map (fun x => try_millify millify x 5) := col_setCol_self hwf1 hlen1
  have hd2other : (entry.1.setCol (c ++ " ")
      ((entry.1.col c).map (fun x => try_millify millify x 5))).col c = entry.1.col c :=
    col_setCol_other hwf1 hlen1 hfne
  simp only [make_map, he, hc] at hfig
  rcases Option.some.inj hfig with rfl
  refine ⟨rfl, ?_, ?_, ?_⟩
  · dsimp only
    by_cases hv : value = "gdp"
    · rw [if_pos (hgdp.mpr hv)]
      rw [col_setCol_other hwf2 (by simp [col_length]) hfne']
      exact hd2self
    · rw [if_neg (fun hh => hv (hgdp.mp hh))]
      exact hd2self
  · intro hv
    have hcgdp : c = "gdp" := hgdp.mpr hv
    refine ⟨?_, ?_, ?_, ?_⟩ <;> dsimp only
    · rw [if_pos hcgdp]
      rw [col_setCol_self hwf2 (by simp [col_length])]
      rw [hd2other]
    · rw [if_pos hv]
    · rw [if_pos hv]
    · simp [hv]
  · intro hv
    have hcne : c ≠ "gdp" := fun hh => hv (hgdp.mp hh)
    refine ⟨?_, ?_, ?_, ?_, ?_⟩ <;> dsimp only
    · rw [if_neg hcne]
      exact hd2other
    · rw [if_pos hv]
    · rw [if_neg hv]
    · rw [if_neg hv]
    · simp [hv]

/-- The map figure produced on the sample table for topic `water`, with the
identity function standing in for log10 and an always-failing formatter. -/
def waterMapFig : MapFig :=
  { colorCol := "wat_bas_n",
    colorValues := [.num 99, .num 97, .num 95],
    customMillified := [.num 99, .num 97, .num 95],
    colorbarTitle := "Water Cov.%",
    tickvals := none, ticktext := none, hoverOverride := false }

/-- C1 witness: the theorem instantiated on the sample table with topic
`water`, whose measure column is `wat_bas_n`. -/
theorem make_map_spec_witness :
    (sampleData.Wf ∧
      make_map (fun v => v) (fun _ _ => Except.error "") sampleData "water" = some waterMapFig) ∧
    waterMapFig.colorCol = "wat_bas_n" :=
  ⟨⟨by unfold DataFrame.Wf; decide, by decide⟩,
    (make_map_spec (fun v => v) (fun _ _ => Except.error "") sampleData "water"
      (by unfold DataFrame.Wf; decide)
      _ rfl "wat_bas_n" (by decide) (by decide) waterMapFig (by decide)).1⟩

/-- C2: every data point of a line chart produced by `update_line_chart`
comes from a row of the topic's column-filtered table whose `iso3` cell is
the clicked country code; the point's x value is that row's year cell (read
under the renamed columns) and it satisfies both bounds of the inclusive
year range, so no point with a year outside the range appears. -/
theorem line_chart_rows (loc iss ser_lev res_type : String) (y0 y1 : Int)
    (data : DataFrame) (fig : LineFig)
    (h : update_line_chart (some loc) iss ser_lev res_type (y0, y1) data = some fig) :
    ∀ tr ∈ fig.traces, ∀ v ∈ tr.x,
      valGeInt v y0 = true ∧ valLeInt v y1 = true ∧
      ∃ df0, lineDf iss ser_lev res_type data = some df0 ∧
        ∃ row ∈ df0.rows, rowGet df0.cols row "iso3" = Val.str loc ∧
          rowGet (df0.cols.map tokenRename) row "year" = v := by
  unfold update_line_chart at h
  split at h
  · rename_i selected df0 hi hl
    split at h
    · rename_i heq
      exact absurd heq (by simp)
    · rename_i location hloc
      rcases Option.some.inj hloc with rfl
      split at h
      · exact absurd h (by simp)
      · rename_i df4 hf
        split at h
        · exact absurd h (by simp)
        · rename_i row0 hh
          injection h with h2
          subst h2
          intro tr htr v hv
          rcases List.mem_map.mp htr with ⟨cname, hcmem, rfl⟩
          simp only [filteredFrame, hl] at hf
          rcases Option.some.inj hf with rfl
          rcases List.mem_map.mp hv with ⟨row, hrow, rfl⟩
          rcases List.mem_filter.mp hrow with ⟨hrow2, hyear⟩
          rcases List.mem_filter.mp hrow2 with ⟨hrow0, hiso⟩
          simp only [Bool.and_eq_true] at hyear
          rcases hyear with ⟨hge, hle⟩
          exact ⟨hge, hle, df0, hl, row, hrow0, beq_iff_eq.mp hiso, rfl⟩
  · exact absurd h (by simp)

/-- The line figure produced for USA / water / baseline / national / 2005-2015
on the sample table. -/
def usaWaterFig : LineFig :=
  { traces := [⟨"Basic", [.num 2010], [.num 99], true⟩,
               ⟨"Limited", [.num 2010], [.num 88], false⟩],
    title := some "<b>United States -- Year by Year</b>",
    xaxisTitle := some "Year",
    yaxisTitle := some "Water Coverage (%)" }

/-- C2 witness: the theorem instantiated at a concrete click, topic, tier,
suffix, year range and data point. -/
theorem line_chart_rows_witness :
    update_line_chart (some "USA") "water" "baseline" "_n" (2005, 2015) sampleData =
      some usaWaterFig ∧
    valGeInt (Val.num 2010) 2005 = true ∧ valLeInt (Val.num 2010) 2015 = true :=
  ⟨by decide,
   (line_chart_rows "USA" "water" "baseline" "_n" 2005 2015 sampleData usaWaterFig
      (by decide) ⟨"Basic", [.num 2010], [.num 99], true⟩ (by decide)
      (.num 2010) (by decide)).1,
   (line_chart_rows "USA" "water" "baseline" "_n" 2005 2015 sampleData usaWaterFig
      (by decide) ⟨"Basic", [.num 2010], [.num 99], true⟩ (by decide)
      (.num 2010) (by decide)).2.1⟩

/-- C6: in a non-empty line chart produced by `update_line_chart`, the
plotted series are exactly the final table's columns from position 4
(index 3) onward, in order; each trace's x data is the table's year column
and its y data the column bearing the trace's name; the x axis is `Year`;
and (when those column names are pairwise distinct) exactly the first series
is initially visible while every other series is present but legend-only. -/
theorem line_chart_series (loc iss ser_lev res_type : String) (y0 y1 : Int)
    (data df4 : DataFrame) (fig : LineFig)
    (hf : filteredFrame loc iss ser_lev res_type (y0, y1) data = some df4)
    (h : update_line_chart (some loc) iss ser_lev res_type (y0, y1) data = some fig)
    (hnd : (df4.cols.drop 3).Nodup) :
    fig.traces.map Trace.name = df4.cols.drop 3 ∧
    (∀ tr ∈ fig.traces, tr.x = df4.col "year" ∧ tr.y = df4.col tr.name) ∧
    fig.xaxisTitle = some "Year" ∧
    (∀ i tr, fig.traces[i]? = some tr → (tr.visible = true ↔ i = 0)) := by
  unfold update_line_chart at h
  split at h
  · rename_i selected df0 hi hl
    split at h
    · rename_i heq
      exact absurd heq (by simp)
    · rename_i location hloc
      rcases Option.some.inj hloc with rfl
      rw [hf] at h
      split at h
      · rename_i heq2
        exact absurd heq2 (by simp)
      · rename_i row0 hh
        rcases Option.some.inj hh with rfl
        split at h
        · exact absurd h (by simp)
        · rename_i r0 hh0
          injection h with h2
          subst h2
          refine ⟨?_, ?_, rfl, ?_⟩
          · rw [List.map_map]
            exact List.map_congr_left (fun c _ => rfl) |>.trans (List.map_id _)
          · intro tr htr
            rcases List.mem_map.mp htr with ⟨cname, hcmem, rfl⟩
            exact ⟨rfl, rfl⟩
          · intro i tr htr
            rw [List.getElem?_map] at htr
            rcases hopt : (df4.cols.drop 3)[i]? with _ | c
            · rw [hopt] at htr; simp at htr
            · rw [hopt] at htr
              injection htr with htr2
              subst htr2
              have hd0 : df4.cols[3]? = (df4.cols.drop 3)[0]? := by
                rw [List.getElem?_drop]
              constructor
              · intro hvis
                have hceq : df4.cols[3]? = some c := beq_iff_eq.mp hvis
                have h0 : (df4.cols.drop 3)[0]? = some c := by rw [← hd0, hceq]
                have hlt : 0 < (df4.cols.drop 3).length :=
                  (List.getElem?_eq_some.mp h0).1
                exact (List.getElem?_inj hlt hnd (h0.trans hopt.symm)).symm
              · intro hi0
                subst hi0
                show (df4.cols[3]? == some c) = true
                rw [hd0, hopt]
                simp
  · exact absurd h (by simp)

theorem issue_some_of_lineDf {iss ser_lev res_type : String} {data df0 : DataFrame}
    (h : lineDf iss ser_lev res_type data = some df0) :
    ∃ e, issue data iss = some e := by
  unfold lineDf at h
  rcases hi : issue data iss with _ | e
  · rw [hi] at h
    rcases hs : services ser_lev with _ | s <;> rw [hs] at h <;> simp at h
  · exact ⟨e, rfl⟩

/-- C9: when a click datum is present but filtering by the clicked ISO3 code
and the year range leaves an empty table, `update_line_chart` does not
return a chart: building the title from the first row
(`filtered_df['country'].iloc[0]`) raises an unhandled IndexError, modelled
by the `none` result. -/
theorem empty_selection_raises (loc iss ser_lev res_type : String) (y0 y1 : Int)
    (data df4 : DataFrame)
    (hf : filteredFrame loc iss ser_lev res_type (y0, y1) data = some df4)
    (hempty : df4.rows = []) :
    update_line_chart (some loc) iss ser_lev res_type (y0, y1) data = none := by
  have hl : ∃ df0, lineDf iss ser_lev res_type data = some df0 := by
    unfold filteredFrame at hf
    rcases hl0 : lineDf iss ser_lev res_type data with _ | df0
    · rw [hl0] at hf; simp at hf
    · exact ⟨df0, rfl⟩
  rcases hl with ⟨df0, hl⟩
  rcases issue_some_of_lineDf hl with ⟨e, hi⟩
  simp [update_line_chart, hi, hl, hf, hempty]

/-- The frame reaching the chart-building step for USA / water / baseline /
national / 2005-2015 on the sample table. -/
def usaWaterDf4 : DataFrame :=
  { cols := ["iso3", "year", "country", "Basic", "Limited"],
    rows := [[.str "USA", .num 2010, .str "United States", .num 99, .num 88]] }

/-- C6 witness: the theorem instantiated on the sample table. -/
theorem line_chart_series_witness :
    (filteredFrame "USA" "water" "baseline" "_n" (2005, 2015) sampleData = some usaWaterDf4 ∧
     update_line_chart (some "USA") "water" "baseline" "_n" (2005, 2015) sampleData =
       some usaWaterFig ∧
     (usaWaterDf4.cols.drop 3).Nodup) ∧
    usaWaterFig.traces.map Trace.name = usaWaterDf4.cols.drop 3 :=
  ⟨⟨by decide, by decide, by decide⟩,
    (line_chart_series "USA" "water" "baseline" "_n" 2005 2015 sampleData usaWaterDf4
      usaWaterFig (by decide) (by decide) (by decide)).1⟩

/-- The empty filtered frame produced by an out-of-range year selection. -/
def usaWaterEmptyDf : DataFrame :=
  { cols := ["iso3", "year", "country", "Basic", "Limited"], rows := [] }

/-- C9 witness: the year range [1990, 1995] selects no rows of the sample
table, and the renderer then fails (returns `none`) instead of producing a
chart. -/
theorem empty_selection_raises_witness :
    (filteredFrame "USA" "water" "baseline" "_n" (1990, 1995) sampleData =
       some usaWaterEmptyDf ∧ usaWaterEmptyDf.rows = []) ∧
    update_line_chart (some "USA") "water" "baseline" "_n" (1990, 1995) sampleData = none :=
  ⟨⟨by decide, rfl⟩,
    empty_selection_raises "USA" "water" "baseline" "_n" 1990 1995 sampleData
      usaWaterEmptyDf (by decide) rfl⟩

/-- C4 witness: on the sample table with tier `baseline` and suffix `_n`,
the selected column `wat_bas_n` cannot end with the non-selected suffix
`_u`. -/
theorem line_chart_column_selection_witness :
    ("water" ∈ issueKeys ∧ ("water" : String) ≠ "gdp" ∧ "_n" ∈ residenceKeys ∧
      "_u" ∈ residenceKeys ∧ ("_u" : String) ≠ "_n") ∧
    strEndsWith "wat_bas_n" "_u" = false :=
  ⟨⟨by decide, by decide, by decide, by decide, by decide⟩,
    (line_chart_column_selection "water" "baseline" "_n" sampleData (by decide) (by decide)
      _ rfl _ rfl _ rfl).2 (by decide) "_u" (by decide) (by decide)
      "wat_bas_n" (by decide)⟩
